import Mathlib

set_option maxRecDepth 8000

/- Shallow embedding of src/resource_mon.py (class ResourceMonitor).
   Reading a /proc file is modelled by passing the file content in as a
   String argument; time.sleep has no semantic content and is dropped.
   Python exceptions are modelled with the Except monad, using the error
   taxonomy of the spec for the conditions it names. -/

/-- Failure conditions of the monitor.  parseError models the Python
ValueError raised by a failing int() or float() conversion (ParseError in
the spec taxonomy); indexError models IndexError from an out of range
subscript; divideByZeroError models ZeroDivisionError (DivideByZeroError
in the spec taxonomy); notFoundError models the failure observed when no
line of the disk table names a monitored disk (in CPython an unbound
local at the return statement of GetIOData; NotFoundError in the spec
taxonomy). -/
inductive PyError where
  | parseError
  | indexError
  | divideByZeroError
  | notFoundError
  deriving DecidableEq, Repr

instance {ε α : Type} [DecidableEq ε] [DecidableEq α] : DecidableEq (Except ε α) := fun a b =>
  match a, b with
  | .ok x, .ok y =>
    if h : x = y then isTrue (by rw [h]) else isFalse (fun hc => h (Except.ok.inj hc))
  | .error x, .error y =>
    if h : x = y then isTrue (by rw [h]) else isFalse (fun hc => h (Except.error.inj hc))
  | .ok _, .error _ => isFalse (fun hc => Except.noConfusion hc)
  | .error _, .ok _ => isFalse (fun hc => Except.noConfusion hc)

/-- Sequencing of fallible computations, modelling Python exception
propagation: a raised exception aborts the rest of the computation. -/
def bindE {α β : Type} (x : Except PyError α) (f : α → Except PyError β) : Except PyError β :=
  match x with
  | .ok a => f a
  | .error e => .error e

@[simp] theorem bindE_ok {α β : Type} (a : α) (f : α → Except PyError β) :
    bindE (.ok a) f = f a := rfl

@[simp] theorem bindE_error {α β : Type} (e : PyError) (f : α → Except PyError β) :
    bindE (.error e) f = .error e := rfl

/-- Subscript access xs[i] for a nonnegative literal index, raising
IndexError when the index is out of range. -/
def pyIndex {α : Type} (l : List α) (i : Nat) : Except PyError α :=
  match l.get? i with
  | some v => .ok v
  | none => .error .indexError

/-- Leading and trailing whitespace stripping, as done by the Python
int() and float() conversions on their argument. -/
def stripWs (l : List Char) : List Char :=
  ((l.dropWhile Char.isWhitespace).reverse.dropWhile Char.isWhitespace).reverse

/-- Value of a decimal digit string (meaningful when every character is a
digit). -/
def digitsToNat (l : List Char) : Nat :=
  l.foldl (fun n c => n * 10 + (c.toNat - 48)) 0

/-- Integer literal parsing, modelling Python int(str) after whitespace
stripping: an optional sign followed by one or more decimal digits. -/
def pyIntCore (l : List Char) : Option ℤ :=
  match l with
  | '-' :: rest =>
    if rest.isEmpty then none
    else if rest.all Char.isDigit then some (-(digitsToNat rest : ℤ)) else none
  | '+' :: rest =>
    if rest.isEmpty then none
    else if rest.all Char.isDigit then some ((digitsToNat rest : ℤ)) else none
  | _ =>
    if l.isEmpty then none
    else if l.all Char.isDigit then some ((digitsToNat l : ℤ)) else none

/-- Python int(str); a failure raises ValueError, which the spec taxonomy
calls ParseError. -/
def pyInt (s : String) : Except PyError ℤ :=
  match pyIntCore (stripWs s.toList) with
  | some z => .ok z
  | none => .error .parseError

/-- Split at every occurrence of one separator character, keeping empty
pieces, as Python str.split(sep) with an explicit separator does. -/
def splitOnChar (sep : Char) : List Char → List (List Char)
  | [] => [[]]
  | c :: cs =>
    match splitOnChar sep cs with
    | [] => [[c]]
    | h :: t => if c = sep then [] :: h :: t else (c :: h) :: t

/-- Unsigned fractional literal: digits with an optional decimal point,
at least one digit overall.  The exponent and inf/nan forms accepted by
Python float(str) never occur in the counter formats considered here and
are not modelled. -/
def pyFracCore (l : List Char) : Option ℚ :=
  match splitOnChar '.' l with
  | [ip] =>
    if ip.isEmpty then none
    else if ip.all Char.isDigit then some ((digitsToNat ip : ℚ)) else none
  | [ip, fp] =>
    if ip.isEmpty && fp.isEmpty then none
    else if (ip ++ fp).all Char.isDigit then
      some ((digitsToNat ip : ℚ) + (digitsToNat fp : ℚ) / (10 : ℚ) ^ fp.length)
    else none
  | _ => none

/-- Signed fractional literal for Python float(str). -/
def pyFloatCore (l : List Char) : Option ℚ :=
  match l with
  | '-' :: rest => (pyFracCore rest).map (fun q => -q)
  | '+' :: rest => pyFracCore rest
  | _ => pyFracCore l

/-- Python float(str) into exact rationals; a failure raises ValueError,
which the spec taxonomy calls ParseError. -/
def pyFloat (s : String) : Except PyError ℚ :=
  match pyFloatCore (stripWs s.toList) with
  | some q => .ok q
  | none => .error .parseError

/-- Split at every whitespace character, keeping empty pieces. -/
def splitWsChar : List Char → List (List Char)
  | [] => [[]]
  | c :: cs =>
    match splitWsChar cs with
    | [] => [[c]]
    | h :: t => if c.isWhitespace then [] :: h :: t else (c :: h) :: t

/-- Python str.split() with no argument: split on whitespace and drop the
empty pieces. -/
def pySplit (s : String) : List String :=
  ((splitWsChar s.toList).map (fun l => String.mk l)).filter (fun t => !(t == ""))

/-- First line of a file content, including its trailing newline, as the
readline method of a Python file object returns it. -/
def readlineList : List Char → List Char
  | [] => []
  | c :: cs => if c = '\n' then ['\n'] else c :: readlineList cs

/-- The token list GetCPUData works on: the first line of the source,
split on the single space character (Python split with an explicit
separator, which keeps empty tokens), then the Python slice [2:6], which
silently yields fewer than 4 tokens on a short line. -/
def cpuTokens (src : String) : List String :=
  (((splitOnChar ' ' (readlineList src.toList)).map (fun l => String.mk l)).drop 2).take 4

/-- Error-propagating elementwise conversion, modelling the in-place
int() loop of GetCPUData: the first failing conversion aborts the loop. -/
def mapME {α β : Type} (f : α → Except PyError β) : List α → Except PyError (List β)
  | [] => .ok []
  | x :: xs => bindE (f x) (fun y => bindE (mapME f xs) (fun ys => .ok (y :: ys)))

/-- GetCPUData of resource_mon.py, with the content of /proc/stat passed
in: read the first line, split it on the space character, slice [2:6] and
convert each token with int(). -/
def GetCPUData (src : String) : Except PyError (List ℤ) :=
  mapME pyInt (cpuTokens src)

/-- The subtraction loop shared by GetCPUDelta and GetIODelta:
for i in range(len(first)): second[i] -= first[i].  The loop runs by
increasing index, so it is the head-first recursion below: an index i
with len(second) <= i < len(first) raises IndexError, and trailing
elements of second beyond len(first) are left unchanged. -/
def deltaLoop {α : Type} [Sub α] : List α → List α → Except PyError (List α)
  | [], second => .ok second
  | _ :: _, [] => .error .indexError
  | f :: fs, s :: ss =>
    match deltaLoop fs ss with
    | .ok r => .ok ((s - f) :: r)
    | .error e => .error e

/-- GetCPUDelta: sleep SAMPLE_INTERVAL (no semantic content), read the
second CPU sample from src2, and subtract the first sample from it
elementwise in place. -/
def GetCPUDelta (first_sample : List ℤ) (src2 : String) : Except PyError (List ℤ) :=
  bindE (GetCPUData src2) (fun second_sample => deltaLoop first_sample second_sample)

/-- The percentage derivation of GetCPUStats:
100 - (cpu_delta[len(cpu_delta) - 1] * 100.00 / sum(cpu_delta)).
The subscript is evaluated first (IndexError on an empty list), then the
division (ZeroDivisionError when the sum is zero). -/
def cpuPercentage (cpu_delta : List ℤ) : Except PyError ℚ :=
  match cpu_delta.get? (cpu_delta.length - 1) with
  | none => .error .indexError
  | some idle =>
    let s : ℤ := cpu_delta.foldl (fun a b => a + b) 0
    if s = 0 then .error .divideByZeroError
    else .ok (100 - ((idle : ℚ) * 100 / (s : ℚ)))

/-- GetCPUStats: first sample from src1, delta against the second sample
read from src2, then the percentage derivation. -/
def GetCPUStats (src1 src2 : String) : Except PyError ℚ :=
  bindE (GetCPUData src1) (fun first => bindE (GetCPUDelta first src2) cpuPercentage)

/-- The monitored disk allow-list of ResourceMonitor. -/
def DISKS_TO_MONITOR : List String := ["sda"]

/-- CalculateIOBandwidth: fields 5, 6, 9 and 10 of one diskstats row are
converted with float() and combined into the two per-snapshot rates
(1 / reading_seconds) * kb_sectors_read and
(1 / writing_seconds) * kb_sectors_wrote.  The two explicit zero tests
model the Python ZeroDivisionError of the two divisions, in the order the
statements execute. -/
def CalculateIOBandwidth (io_fields : List String) : Except PyError (List ℚ) :=
  bindE (pyIndex io_fields 5) (fun sectors_read =>
  bindE (pyIndex io_fields 6) (fun reading_milliseconds =>
  bindE (pyIndex io_fields 9) (fun sectors_wrote =>
  bindE (pyIndex io_fields 10) (fun writing_milliseconds =>
  bindE (pyFloat sectors_read) (fun sr =>
  bindE (pyFloat sectors_wrote) (fun sw =>
  bindE (pyFloat reading_milliseconds) (fun rms =>
  bindE (pyFloat writing_milliseconds) (fun wms =>
  let kb_sectors_read := sr * 512 / 128
  let kb_sectors_wrote := sw * 512 / 128
  let reading_seconds := rms / 1000
  let writing_seconds := wms / 1000
  if reading_seconds = 0 then .error .divideByZeroError
  else if writing_seconds = 0 then .error .divideByZeroError
  else .ok [(1 / reading_seconds) * kb_sectors_read,
            (1 / writing_seconds) * kb_sectors_wrote]))))))))

/-- The lines a Python file object yields when iterated: the pieces
between newlines, with no extra empty line when the content ends in a
newline.  The trailing newline Python keeps on each yielded line is
dropped here; every use below whitespace-splits the line, for which it is
immaterial. -/
def fileLines (src : String) : List String :=
  if src = "" then []
  else
    let parts := (splitOnChar '\n' src.toList).map (fun l => String.mk l)
    if src.toList.getLast? = some '\n' then parts.dropLast else parts

/-- Whether a diskstats row names a monitored disk: its field at index 2
is on the allow-list (false also when the row has fewer than 3 fields). -/
def lineMatches (line : String) : Bool :=
  match (pySplit line).get? 2 with
  | some f2 => decide (f2 ∈ DISKS_TO_MONITOR)
  | none => false

/-- The line loop of GetIOData, with the local io_bandwidth as loop
state: none models the variable not yet being assigned.  Each line is
whitespace split; field index 2 is subscripted before the membership
test; a matching row overwrites the state with its bandwidth pair. -/
def ioLoop (acc : Option (List ℚ)) : List String → Except PyError (Option (List ℚ))
  | [] => .ok acc
  | line :: rest =>
    let io_fields := pySplit line
    bindE (pyIndex io_fields 2) (fun f2 =>
      if f2 ∈ DISKS_TO_MONITOR then
        bindE (CalculateIOBandwidth io_fields) (fun bw => ioLoop (some bw) rest)
      else ioLoop acc rest)

/-- GetIOData, with the content of /proc/diskstats passed in: run the
line loop; if no row ever matched, returning the unassigned local raises
(NotFoundError in the spec taxonomy, UnboundLocalError in CPython). -/
def GetIOData (src : String) : Except PyError (List ℚ) :=
  match ioLoop none (fileLines src) with
  | .ok (some v) => .ok v
  | .ok none => .error .notFoundError
  | .error e => .error e

/-- GetIODelta: sleep SAMPLE_INTERVAL (no semantic content), read the
second sample of per-snapshot rates from src2, and subtract the first
sample from it elementwise in place. -/
def GetIODelta (first_sample : List ℚ) (src2 : String) : Except PyError (List ℚ) :=
  bindE (GetIOData src2) (fun second_sample => deltaLoop first_sample second_sample)

/-- GetIOReadStats: io_delta = GetIODelta(GetIOData()), then return the
pair (io_delta[0], io_delta[1]). -/
def GetIOReadStats (src1 src2 : String) : Except PyError (ℚ × ℚ) :=
  bindE (GetIOData src1) (fun first =>
  bindE (GetIODelta first src2) (fun io_delta =>
  bindE (pyIndex io_delta 0) (fun r =>
  bindE (pyIndex io_delta 1) (fun w => .ok (r, w)))))

example : pyInt " 42\n" = .ok 42 := by decide
example : pyInt "1\t2" = .error .parseError := by decide
example : pyFloat "256" = .ok 256 := by decide
example : pySplit " a  b\n" = ["a", "b"] := by decide
example : cpuTokens "cpu  100 0 0 300 9 9\nnext" = ["100", "0", "0", "300"] := by decide
example : GetCPUData "cpu 1 2" = .ok [2] := by decide
example : GetIOData "x" = .error .indexError := by decide
example : GetIOData "0 0 sdb 0 0 0" = .error .notFoundError := by decide

/-- Success test for a fallible computation. -/
def isOkE {α : Type} : Except PyError α → Bool
  | .ok _ => true
  | .error _ => false

/- Helper lemmas shared by the claim theorems. -/

/-- The delta loop succeeds whenever the first sample is no longer than
the second, returning the second sample with the first subtracted on the
common prefix and the tail untouched. -/
theorem deltaLoop_ok_of_le : ∀ a b : List ℤ, a.length ≤ b.length →
    ∃ r, deltaLoop a b = .ok r ∧ r.length = b.length ∧
      (∀ i, i < a.length → r.get? i = some (b.getD i 0 - a.getD i 0)) ∧
      (∀ i, a.length ≤ i → r.get? i = b.get? i) := by
  intro a
  induction a with
  | nil =>
    intro b _
    exact ⟨b, rfl, rfl, fun i hi => absurd hi (by simp), fun i _ => rfl⟩
  | cons f fs ih =>
    intro b hb
    cases b with
    | nil => simp at hb
    | cons s ss =>
      obtain ⟨r, hr, hlen, hidx, htail⟩ := ih ss (by simpa using hb)
      refine ⟨(s - f) :: r, by simp [deltaLoop, hr], by simpa using hlen, ?_, ?_⟩
      · intro i hi
        cases i with
        | zero => simp
        | succ j => simpa using hidx j (by simpa using hi)
      · intro i hi
        cases i with
        | zero => simp at hi
        | succ j => simpa using htail j (by simp at hi; omega)

/-- The delta loop raises IndexError when the first sample is strictly
longer than the second. -/
theorem deltaLoop_err_of_lt : ∀ a b : List ℤ, b.length < a.length →
    deltaLoop a b = .error .indexError := by
  intro a
  induction a with
  | nil => intro b hb; simp at hb
  | cons f fs ih =>
    intro b hb
    cases b with
    | nil => rfl
    | cons s ss =>
      have hss := ih ss (by simpa using hb)
      simp [deltaLoop, hss]

/-- C4: for all integer vectors a and b of equal length N, the shared
delta loop of GetCPUDelta and GetIODelta returns a vector of length N
whose entry i is b[i] - a[i] for every i, with negative differences
passed through unmodified (the result lives in ℤ). -/
theorem deltaLoop_equal_length (a b : List ℤ) (h : a.length = b.length) :
    ∃ r, deltaLoop a b = .ok r ∧ r.length = b.length ∧
      ∀ i, i < b.length → r.get? i = some (b.getD i 0 - a.getD i 0) := by
  obtain ⟨r, hr, hlen, hidx, -⟩ := deltaLoop_ok_of_le a b h.le
  exact ⟨r, hr, hlen, fun i hi => hidx i (h ▸ hi)⟩

/-- C4 witness: at a = [5, 1] and b = [3, 9] the delta loop returns a
vector of length 2 with the entries b[i] - a[i], the first one negative. -/
theorem deltaLoop_equal_length_witness :
    ∃ r, deltaLoop ([5, 1] : List ℤ) [3, 9] = .ok r ∧
      r.length = ([3, 9] : List ℤ).length ∧
      ∀ i, i < ([3, 9] : List ℤ).length →
        r.get? i = some (([3, 9] : List ℤ).getD i 0 - ([5, 1] : List ℤ).getD i 0) :=
  deltaLoop_equal_length [5, 1] [3, 9] (by decide)

/-- C10: when the first sample is strictly shorter than the second, the
delta loop raises nothing and returns a vector of the length of the
second sample, with b[i] - a[i] on the common prefix and the remaining
entries of b unchanged. -/
theorem deltaLoop_shorter_first (a b : List ℤ) (h : a.length < b.length) :
    ∃ r, deltaLoop a b = .ok r ∧ r.length = b.length ∧
      (∀ i, i < a.length → r.get? i = some (b.getD i 0 - a.getD i 0)) ∧
      (∀ i, a.length ≤ i → r.get? i = b.get? i) :=
  deltaLoop_ok_of_le a b h.le

/-- C10 witness: at a = [7] and b = [3, 9] the delta loop succeeds, the
first entry is 3 - 7 and the second entry is passed through unchanged. -/
theorem deltaLoop_shorter_first_witness :
    ∃ r, deltaLoop ([7] : List ℤ) [3, 9] = .ok r ∧
      r.length = ([3, 9] : List ℤ).length ∧
      (∀ i, i < ([7] : List ℤ).length →
        r.get? i = some (([3, 9] : List ℤ).getD i 0 - ([7] : List ℤ).getD i 0)) ∧
      (∀ i, ([7] : List ℤ).length ≤ i → r.get? i = ([3, 9] : List ℤ).get? i) :=
  deltaLoop_shorter_first [7] [3, 9] (by decide)

/-- C6 counterexample: the two samples [0] and [0, 0] have different
lengths, yet the delta loop raises nothing at all: it returns [0, 0].
There is no shape check anywhere in the code. -/
theorem deltaLoop_no_shape_error_cx :
    ([0] : List ℤ).length ≠ ([0, 0] : List ℤ).length ∧
      deltaLoop ([0] : List ℤ) [0, 0] = .ok [0, 0] := by decide

/-- C6 amended: the delta loop checks no shapes.  When the first vector
is strictly longer than the second it fails, with IndexError rather than
a dedicated shape error; when the first vector is strictly shorter it
succeeds. -/
theorem deltaLoop_mismatch_behavior :
    (∀ a b : List ℤ, b.length < a.length → deltaLoop a b = .error .indexError)
    ∧ (∀ a b : List ℤ, a.length < b.length → ∃ r, deltaLoop a b = .ok r) := by
  refine ⟨deltaLoop_err_of_lt, fun a b h => ?_⟩
  obtain ⟨r, hr, -, -, -⟩ := deltaLoop_ok_of_le a b h.le
  exact ⟨r, hr⟩

/-- C6 amended witness: [1, 2] against [5] raises IndexError, and [1]
against [5, 6] succeeds. -/
theorem deltaLoop_mismatch_behavior_witness :
    deltaLoop ([1, 2] : List ℤ) [5] = .error .indexError ∧
      ∃ r, deltaLoop ([1] : List ℤ) [5, 6] = .ok r :=
  ⟨deltaLoop_mismatch_behavior.1 [1, 2] [5] (by decide),
   deltaLoop_mismatch_behavior.2 [1] [5, 6] (by decide)⟩

/-- Sum of a four-element list the way the Python sum builtin folds it. -/
theorem foldl_add_four (u n s i : ℤ) :
    List.foldl (fun a b => a + b) (0 : ℤ) [u, n, s, i] = u + n + s + i := by
  simp only [List.foldl]
  ring

/-- C1: on a CPU delta vector of four integers with nonzero sum, the
percentage derivation of GetCPUStats returns
100 - (idle * 100 / sum), where idle is the last element. -/
theorem cpuPercentage_formula (u n s i : ℤ) (h : u + n + s + i ≠ 0) :
    cpuPercentage [u, n, s, i] =
      .ok (100 - ((i : ℚ) * 100 / ((u : ℚ) + n + s + i))) := by
  unfold cpuPercentage
  simp only [show ([u, n, s, i] : List ℤ).get? (([u, n, s, i] : List ℤ).length - 1) = some i
               from rfl,
             foldl_add_four, if_neg h]
  refine congrArg Except.ok ?_
  push_cast
  ring

/-- C1 witness: the delta [10, 0, 0, 90] gives exactly 10 percent, and
the delta [10, 0, 0, 20] gives exactly 100 / 3, approximately 33.33. -/
theorem cpuPercentage_formula_witness :
    cpuPercentage [10, 0, 0, 90] = .ok 10 ∧
      cpuPercentage [10, 0, 0, 20] = .ok (100 / 3) :=
  ⟨(cpuPercentage_formula 10 0 0 90 (by decide)).trans (by norm_num),
   (cpuPercentage_formula 10 0 0 20 (by decide)).trans (by norm_num)⟩

/-- C5: on a CPU delta vector of four integers whose sum is zero, the
percentage derivation raises the division by zero failure instead of
returning a value. -/
theorem cpuPercentage_zero_sum (u n s i : ℤ) (h : u + n + s + i = 0) :
    cpuPercentage [u, n, s, i] = .error .divideByZeroError := by
  unfold cpuPercentage
  simp only [show ([u, n, s, i] : List ℤ).get? (([u, n, s, i] : List ℤ).length - 1) = some i
               from rfl,
             foldl_add_four, if_pos h]

/-- C5 witness: the all-zero delta raises the division by zero failure. -/
theorem cpuPercentage_zero_sum_witness :
    cpuPercentage [0, 0, 0, 0] = .error .divideByZeroError :=
  cpuPercentage_zero_sum 0 0 0 0 (by decide)

/-- Evaluation of CalculateIOBandwidth once the four raw fields are known
to be present and to parse: the zero tests on the two elapsed-seconds
values decide between ZeroDivisionError and the rate pair. -/
theorem calcIO_eval (io_fields : List String) (s5 s6 s9 s10 : String) (sr mr sw mw : ℚ)
    (h5 : io_fields.get? 5 = some s5) (h6 : io_fields.get? 6 = some s6)
    (h9 : io_fields.get? 9 = some s9) (h10 : io_fields.get? 10 = some s10)
    (p5 : pyFloat s5 = .ok sr) (p6 : pyFloat s6 = .ok mr)
    (p9 : pyFloat s9 = .ok sw) (p10 : pyFloat s10 = .ok mw) :
    CalculateIOBandwidth io_fields =
      if mr / 1000 = 0 then .error .divideByZeroError
      else if mw / 1000 = 0 then .error .divideByZeroError
      else .ok [(1 / (mr / 1000)) * (sr * 512 / 128), (1 / (mw / 1000)) * (sw * 512 / 128)] := by
  simp only [List.get?_eq_getElem?] at h5 h6 h9 h10
  simp [CalculateIOBandwidth, pyIndex, h5, h6, h9, h10, p5, p6, p9, p10]

/-- C2: for a disk-stat field vector whose fields at indices 5, 6, 9 and
10 parse to the numbers sectors_read, ms_read, sectors_written and
ms_write, with the two millisecond values nonzero, CalculateIOBandwidth
returns the pair of per-snapshot rates
(sectors_read * 512 / 128) / (ms_read / 1000) and
(sectors_written * 512 / 128) / (ms_write / 1000). -/
theorem calculateIOBandwidth_formula (io_fields : List String) (s5 s6 s9 s10 : String)
    (sr mr sw mw : ℚ)
    (h5 : io_fields.get? 5 = some s5) (h6 : io_fields.get? 6 = some s6)
    (h9 : io_fields.get? 9 = some s9) (h10 : io_fields.get? 10 = some s10)
    (p5 : pyFloat s5 = .ok sr) (p6 : pyFloat s6 = .ok mr)
    (p9 : pyFloat s9 = .ok sw) (p10 : pyFloat s10 = .ok mw)
    (hmr : mr ≠ 0) (hmw : mw ≠ 0) :
    CalculateIOBandwidth io_fields =
      .ok [(sr * 512 / 128) / (mr / 1000), (sw * 512 / 128) / (mw / 1000)] := by
  rw [calcIO_eval io_fields s5 s6 s9 s10 sr mr sw mw h5 h6 h9 h10 p5 p6 p9 p10]
  rw [if_neg (by simp [div_eq_zero_iff, hmr]), if_neg (by simp [div_eq_zero_iff, hmw])]
  refine congrArg Except.ok ?_
  refine List.cons_eq_cons.mpr ⟨?_, List.cons_eq_cons.mpr ⟨?_, rfl⟩⟩ <;> field_simp <;> ring

/-- C2 witness: sectors_read 256 over 2000 ms and sectors_written 128
over 1000 ms give the rate pair (512, 512). -/
theorem calculateIOBandwidth_formula_witness :
    CalculateIOBandwidth ["0", "0", "sda", "0", "0", "256", "2000", "0", "0", "128", "1000"] =
      .ok [512, 512] := by
  rw [calculateIOBandwidth_formula
        ["0", "0", "sda", "0", "0", "256", "2000", "0", "0", "128", "1000"]
        "256" "2000" "128" "1000" 256 2000 128 1000
        (by decide) (by decide) (by decide) (by decide)
        (by decide) (by decide) (by decide) (by decide)
        (by norm_num) (by norm_num)]
  norm_num

/-- GetIOData on a one-row table for disk sda with sectors_read 256 over
2000 ms and sectors_written 128 over 1000 ms: the snapshot rate pair is
(512, 512). -/
theorem ioData_eval1 :
    GetIOData "0 0 sda 0 0 256 2000 0 0 128 1000" = .ok [512, 512] := by
  have hcalc : CalculateIOBandwidth (pySplit "0 0 sda 0 0 256 2000 0 0 128 1000") =
      .ok [512, 512] := by
    rw [calcIO_eval (pySplit "0 0 sda 0 0 256 2000 0 0 128 1000")
          "256" "2000" "128" "1000" 256 2000 128 1000
          (by decide) (by decide) (by decide) (by decide)
          (by decide) (by decide) (by decide) (by decide)]
    norm_num
  unfold GetIOData
  rw [show fileLines "0 0 sda 0 0 256 2000 0 0 128 1000" =
        ["0 0 sda 0 0 256 2000 0 0 128 1000"] from by decide]
  simp [ioLoop, pyIndex, hcalc, DISKS_TO_MONITOR,
        show (pySplit "0 0 sda 0 0 256 2000 0 0 128 1000")[2]? = some "sda" from by decide]

/-- GetIOData on a one-row table for disk sda with sectors_read 512 over
2000 ms and sectors_written 384 over 1000 ms: the snapshot rate pair is
(1024, 1536). -/
theorem ioData_eval2 :
    GetIOData "0 0 sda 0 0 512 2000 0 0 384 1000" = .ok [1024, 1536] := by
  have hcalc : CalculateIOBandwidth (pySplit "0 0 sda 0 0 512 2000 0 0 384 1000") =
      .ok [1024, 1536] := by
    rw [calcIO_eval (pySplit "0 0 sda 0 0 512 2000 0 0 384 1000")
          "512" "2000" "384" "1000" 512 2000 384 1000
          (by decide) (by decide) (by decide) (by decide)
          (by decide) (by decide) (by decide) (by decide)]
    norm_num
  unfold GetIOData
  rw [show fileLines "0 0 sda 0 0 512 2000 0 0 384 1000" =
        ["0 0 sda 0 0 512 2000 0 0 384 1000"] from by decide]
  simp [ioLoop, pyIndex, hcalc, DISKS_TO_MONITOR,
        show (pySplit "0 0 sda 0 0 512 2000 0 0 384 1000")[2]? = some "sda" from by decide]

/-- C3: whenever the two snapshot reads return per-snapshot rate pairs,
the final emitted pair of GetIOReadStats is their elementwise delta,
second minus first: the rates are computed at read time from each
snapshot on its own, and only the already-derived rates are differenced. -/
theorem getIOReadStats_delta_of_rates (src1 src2 : String) (r1 w1 r2 w2 : ℚ)
    (h1 : GetIOData src1 = .ok [r1, w1]) (h2 : GetIOData src2 = .ok [r2, w2]) :
    GetIOReadStats src1 src2 = .ok (r2 - r1, w2 - w1) := by
  simp [GetIOReadStats, GetIODelta, h1, h2, deltaLoop, pyIndex]

/-- C3 witness: snapshots with rate pairs (512, 512) and (1024, 1536)
give the emitted delta pair (512, 1024). -/
theorem getIOReadStats_delta_of_rates_witness :
    GetIOReadStats "0 0 sda 0 0 256 2000 0 0 128 1000" "0 0 sda 0 0 512 2000 0 0 384 1000" =
      .ok (512, 1024) :=
  (getIOReadStats_delta_of_rates _ _ 512 512 1024 1536 ioData_eval1 ioData_eval2).trans
    (by norm_num)

/-- The only failure pyInt raises is the conversion failure. -/
theorem pyInt_error_eq (s : String) (e : PyError) (h : pyInt s = .error e) :
    e = .parseError := by
  unfold pyInt at h
  cases hc : pyIntCore (stripWs s.toList) <;> rw [hc] at h <;> simp_all

/-- The conversion loop succeeds, preserving the length, when every
element converts. -/
theorem mapME_ok_of_all {α β : Type} (f : α → Except PyError β) :
    ∀ l : List α, (∀ t ∈ l, isOkE (f t) = true) →
      ∃ r, mapME f l = .ok r ∧ r.length = l.length := by
  intro l
  induction l with
  | nil => exact fun _ => ⟨[], rfl, rfl⟩
  | cons x xs ih =>
    intro hall
    obtain ⟨r, hr, hlen⟩ := ih (fun t ht => hall t (List.mem_cons_of_mem x ht))
    have hx := hall x (List.mem_cons_self x xs)
    cases hfx : f x with
    | error e => rw [hfx] at hx; simp [isOkE] at hx
    | ok y => exact ⟨y :: r, by simp [mapME, hfx, hr], by simp [hlen]⟩

/-- The conversion loop over pyInt fails with the conversion failure as
soon as some element does not convert. -/
theorem mapME_pyInt_error :
    ∀ l : List String, (∃ t ∈ l, pyInt t = .error .parseError) →
      mapME pyInt l = .error .parseError := by
  intro l
  induction l with
  | nil => rintro ⟨t, ht, -⟩; simp at ht
  | cons x xs ih =>
    rintro ⟨t, ht, hterr⟩
    cases hfx : pyInt x with
    | error e =>
      rw [pyInt_error_eq x e hfx] at hfx
      simp [mapME, hfx]
    | ok y =>
      rcases List.mem_cons.mp ht with rfl | hmem
      · rw [hfx] at hterr; exact absurd hterr (by simp)
      · simp [mapME, hfx, ih ⟨t, hmem, hterr⟩]

/-- C7 counterexample, both directions.  First: the first line of
"cpu 1 2" has only 3 whitespace-separated tokens, fewer than 6, yet the
reader raises nothing: the Python slice [2:6] just yields the single
token "2" and the reader returns [2].  Second: the first line of
"c x 1\t2 3 4 5 6" has 8 whitespace-separated tokens whose indices 2-5
are the integers 1, 2, 3, 4, so the claim predicts success; but the code
splits on the single space character, not on whitespace, so it extracts
"1\t2" as one token and int() fails on it. -/
theorem getCPUData_cx :
    GetCPUData "cpu 1 2" = .ok [2] ∧ (pySplit "cpu 1 2").length = 3 ∧
      GetCPUData "c x 1\t2 3 4 5 6" = .error .parseError ∧
      (pySplit "c x 1\t2 3 4 5 6").length = 8 := by decide

/-- C7 amended: the reader looks only at the first line, splits it on
the single space character, and takes the Python slice [2:6] of the
token list (at most 4 tokens, silently fewer when the line has fewer
than 6 space-separated tokens, with no error from the short slice); it
fails, with the conversion failure, exactly when one of the extracted
tokens is not an integer. -/
theorem getCPUData_characterization :
    (∀ src, (∀ t ∈ cpuTokens src, isOkE (pyInt t) = true) →
        ∃ l, GetCPUData src = .ok l ∧ l.length = (cpuTokens src).length)
    ∧ (∀ src, (∃ t ∈ cpuTokens src, pyInt t = .error .parseError) →
        GetCPUData src = .error .parseError)
    ∧ (∀ src, (cpuTokens src).length ≤ 4) := by
  refine ⟨fun src h => mapME_ok_of_all pyInt (cpuTokens src) h,
          fun src h => mapME_pyInt_error (cpuTokens src) h,
          fun src => ?_⟩
  have := List.length_take_le 4
    (((splitOnChar ' ' (readlineList src.toList)).map (fun l => String.mk l)).drop 2)
  simp only [cpuTokens]
  exact this

/-- C7 amended witness: on the short first line "cpu 1 2" all sliced
tokens convert, and the reader succeeds with as many values as tokens. -/
theorem getCPUData_characterization_witness :
    ∃ l, GetCPUData "cpu 1 2" = .ok l ∧ l.length = (cpuTokens "cpu 1 2").length :=
  getCPUData_characterization.1 "cpu 1 2" (by decide)

/-- Success of a subscript is exactly presence of the element. -/
theorem pyIndex_ok_iff {α : Type} (l : List α) (i : Nat) (v : α) :
    pyIndex l i = .ok v ↔ l.get? i = some v := by
  unfold pyIndex
  cases h : l.get? i <;> simp

/-- The line loop leaves its state untouched over lines that all have a
third field and all fail the membership test. -/
theorem ioLoop_all_skip : ∀ (lines : List String) (acc : Option (List ℚ)),
    (∀ line ∈ lines, 3 ≤ (pySplit line).length) →
    (∀ line ∈ lines, lineMatches line = false) →
    ioLoop acc lines = .ok acc := by
  intro lines
  induction lines with
  | nil => intro acc _ _; rfl
  | cons line rest ih =>
    intro acc hlen hmatch
    have h3 := hlen line (List.mem_cons_self line rest)
    have hm := hmatch line (List.mem_cons_self line rest)
    obtain ⟨f2, hf2⟩ : ∃ f2, (pySplit line).get? 2 = some f2 := by
      cases hg : (pySplit line).get? 2 with
      | some v => exact ⟨v, rfl⟩
      | none => have := List.get?_eq_none.mp hg; omega
    have hnomem : f2 ∉ DISKS_TO_MONITOR := by
      simp only [lineMatches, hf2] at hm
      exact of_decide_eq_false hm
    simp only [ioLoop]
    rw [show pyIndex (pySplit line) 2 = .ok f2 from (pyIndex_ok_iff _ _ _).mpr hf2]
    rw [bindE_ok, if_neg hnomem]
    exact ih acc (fun l2 hl2 => hlen l2 (List.mem_cons_of_mem _ hl2))
      (fun l2 hl2 => hmatch l2 (List.mem_cons_of_mem _ hl2))

/-- When the line loop ends with an assigned state, the state either
comes from the last matching line of the input, or was the initial state
and no line at all matched. -/
theorem ioLoop_ok_some : ∀ (lines : List String) (acc : Option (List ℚ)) (v : List ℚ),
    ioLoop acc lines = .ok (some v) →
    (∃ pre line post, lines = pre ++ line :: post ∧ lineMatches line = true ∧
        (∀ l2 ∈ post, lineMatches l2 = false) ∧
        CalculateIOBandwidth (pySplit line) = .ok v)
    ∨ (acc = some v ∧ ∀ l2 ∈ lines, lineMatches l2 = false) := by
  intro lines
  induction lines with
  | nil =>
    intro acc v h
    right
    refine ⟨?_, by simp⟩
    simpa [ioLoop] using h
  | cons line rest ih =>
    intro acc v h
    simp only [ioLoop] at h
    cases hg : pyIndex (pySplit line) 2 with
    | error e => rw [hg] at h; simp at h
    | ok f2 =>
      rw [hg] at h
      simp only [bindE_ok] at h
      have hf2 : (pySplit line).get? 2 = some f2 := (pyIndex_ok_iff _ _ _).mp hg
      by_cases hmem : f2 ∈ DISKS_TO_MONITOR
      · rw [if_pos hmem] at h
        cases hcb : CalculateIOBandwidth (pySplit line) with
        | error e => rw [hcb] at h; simp at h
        | ok bw =>
          rw [hcb] at h
          simp only [bindE_ok] at h
          rcases ih (some bw) v h with ⟨pre, l2, post, hsplit, hm2, hpost, hcbw⟩ | ⟨heq, hall⟩
          · exact Or.inl ⟨line :: pre, l2, post, by rw [hsplit]; rfl, hm2, hpost, hcbw⟩
          · left
            refine ⟨[], line, rest, rfl, ?_, hall, ?_⟩
            · simp only [lineMatches, hf2]
              exact decide_eq_true hmem
            · rw [hcb]
              exact congrArg Except.ok (Option.some.inj heq)
      · rw [if_neg hmem] at h
        rcases ih acc v h with ⟨pre, l2, post, hsplit, hm2, hpost, hcbw⟩ | ⟨heq, hall⟩
        · exact Or.inl ⟨line :: pre, l2, post, by rw [hsplit]; rfl, hm2, hpost, hcbw⟩
        · right
          refine ⟨heq, fun l2 hl2 => ?_⟩
          rcases List.mem_cons.mp hl2 with rfl | hmem2
          · simp only [lineMatches, hf2]
            exact decide_eq_false hmem
          · exact hall l2 hmem2

/-- The line loop decomposes over a concatenation: the final state of the
first part feeds the second part. -/
theorem ioLoop_append : ∀ (pre rest : List String) (acc : Option (List ℚ)),
    ioLoop acc (pre ++ rest) = bindE (ioLoop acc pre) (fun acc2 => ioLoop acc2 rest) := by
  intro pre
  induction pre with
  | nil => intro rest acc; rfl
  | cons line p ih =>
    intro rest acc
    simp only [List.cons_append, ioLoop]
    cases hg : pyIndex (pySplit line) 2 with
    | error e => simp
    | ok f2 =>
      by_cases hmem : f2 ∈ DISKS_TO_MONITOR
      · rw [bindE_ok, bindE_ok, if_pos hmem, if_pos hmem]
        cases hcb : CalculateIOBandwidth (pySplit line) with
        | error e => simp
        | ok bw => simp [ih]
      · rw [bindE_ok, bindE_ok, if_neg hmem, if_neg hmem]
        exact ih rest acc

/-- C8 counterexample: in the input "x" no line has its field at index 2
in the monitored-disk set (the only line has just one field), yet the
reader raises IndexError, not the no-row-matched failure: the subscript
io_fields[2] runs before the membership test can fail the search. -/
theorem getIOData_cx :
    (∀ line ∈ fileLines "x", lineMatches line = false) ∧
      GetIOData "x" = .error .indexError ∧
      GetIOData "x" ≠ .error .notFoundError := by decide

/-- C8 amended: over inputs whose lines all have at least 3 whitespace
fields, the reader fails with the no-row-matched failure when no line has
its field at index 2 in the monitored-disk set; and whenever the reader
returns a value, that value is the bandwidth pair of the last matching
line read, with no later line matching. -/
theorem getIOData_notfound_last_match :
    (∀ src, (∀ line ∈ fileLines src, 3 ≤ (pySplit line).length) →
        (∀ line ∈ fileLines src, lineMatches line = false) →
        GetIOData src = .error .notFoundError)
    ∧ (∀ src v, GetIOData src = .ok v →
        ∃ pre line post, fileLines src = pre ++ line :: post ∧ lineMatches line = true ∧
          (∀ l2 ∈ post, lineMatches l2 = false) ∧
          CalculateIOBandwidth (pySplit line) = .ok v) := by
  constructor
  · intro src hlen hmatch
    unfold GetIOData
    rw [ioLoop_all_skip (fileLines src) none hlen hmatch]
  · intro src v h
    unfold GetIOData at h
    cases hl : ioLoop none (fileLines src) with
    | error e => rw [hl] at h; simp at h
    | ok acc =>
      rw [hl] at h
      cases acc with
      | none => simp at h
      | some w =>
        simp only [Except.ok.injEq] at h
        subst h
        rcases ioLoop_ok_some (fileLines src) none w hl with hleft | ⟨habs, -⟩
        · exact hleft
        · exact absurd habs (by simp)

/-- C8 amended witness: a well-formed table whose only row is for disk
sdb raises the no-row-matched failure. -/
theorem getIOData_notfound_last_match_witness :
    GetIOData "0 0 sdb 0 0 0" = .error .notFoundError :=
  getIOData_notfound_last_match.1 "0 0 sdb 0 0 0" (by decide) (by decide)

/-- C9 counterexample: this input contains the line "x" with fewer than
3 whitespace fields, yet the reader does not fail with an index error: an
earlier matching sda row has zero elapsed milliseconds, so the scan
aborts with the division by zero failure before ever reaching "x". -/
theorem getIOData_short_line_cx :
    (∃ line ∈ fileLines "0 0 sda 1 2 3 0 0 0 5 0\nx", (pySplit line).length < 3) ∧
      GetIOData "0 0 sda 1 2 3 0 0 0 5 0\nx" = .error .divideByZeroError ∧
      GetIOData "0 0 sda 1 2 3 0 0 0 5 0\nx" ≠ .error .indexError := by
  have hcalc : CalculateIOBandwidth (pySplit "0 0 sda 1 2 3 0 0 0 5 0") =
      .error .divideByZeroError := by
    rw [calcIO_eval (pySplit "0 0 sda 1 2 3 0 0 0 5 0") "3" "0" "5" "0" 3 0 5 0
          (by decide) (by decide) (by decide) (by decide)
          (by decide) (by decide) (by decide) (by decide)]
    norm_num
  have hmain : GetIOData "0 0 sda 1 2 3 0 0 0 5 0\nx" = .error .divideByZeroError := by
    unfold GetIOData
    rw [show fileLines "0 0 sda 1 2 3 0 0 0 5 0\nx" = ["0 0 sda 1 2 3 0 0 0 5 0", "x"]
          from by decide]
    simp [ioLoop, pyIndex, hcalc, DISKS_TO_MONITOR,
          show (pySplit "0 0 sda 1 2 3 0 0 0 5 0")[2]? = some "sda" from by decide]
  exact ⟨⟨"x", by decide, by decide⟩, hmain, by rw [hmain]; simp⟩

/-- C9 amended: whenever the scan of the disk reader reaches a line with
fewer than 3 whitespace-separated fields (that is, the lines before it
run without raising), the reader fails with IndexError on that line, even
though such a line never belongs to a monitored disk: the subscript at
index 2 runs before the membership test. -/
theorem getIOData_short_line (src : String) (pre post : List String) (line : String)
    (hlines : fileLines src = pre ++ line :: post)
    (hshort : (pySplit line).length < 3)
    (hpre : ∃ acc, ioLoop none pre = .ok acc) :
    GetIOData src = .error .indexError := by
  obtain ⟨acc, hacc⟩ := hpre
  have hidx : (pySplit line).get? 2 = none := List.get?_eq_none.mpr (by omega)
  unfold GetIOData
  rw [hlines, ioLoop_append, hacc]
  simp only [bindE_ok, ioLoop]
  rw [show pyIndex (pySplit line) 2 = .error .indexError from by unfold pyIndex; rw [hidx]]
  simp

/-- C9 amended witness: the input "q r" has a single line with 2 fields;
the scan reaches it at once and raises IndexError. -/
theorem getIOData_short_line_witness : GetIOData "q r" = .error .indexError :=
  getIOData_short_line "q r" [] [] "q r" (by decide) (by decide) ⟨none, rfl⟩
